import Mathlib

/-!
Verification of the notification dispatch pipeline of
`dipak4coding/whatsapp-automation-webapp` (`app.py`).

Python strings are modelled as `List Char`; machine-level effects (CSV read,
template file read, WebDriver init, session check, per-message send outcome,
`driver.quit()`) are injected through an explicit environment record, so the
worker `run_messaging_process` becomes a pure function of the environment and
the previous global `message_status`.
-/

namespace WhatsappWebapp

/-- Python's default whitespace set for `str.strip()` (ASCII part). -/
def isPySpace (c : Char) : Bool :=
  c = ' ' || c = '\t' || c = '\n' || c = '\r' || c = '\x0b' || c = '\x0c'

/-- Fuel-indexed scanner for Python `str.replace`: scans left to right; at the
first position where `pat` matches, emits `rep` and continues after the match
(the replacement text is not rescanned). The wrapper always passes
`fuel = s.length`; any fuel at least the string length gives the same
result (`pyReplaceAux_fuel`). -/
def pyReplaceAux (pat rep : List Char) : Nat → List Char → List Char
  | _, [] => []
  | 0, l => l
  | Nat.succ fuel, c :: rest =>
    if pat.isPrefixOf (c :: rest) then
      rep ++ pyReplaceAux pat rep fuel (List.drop (pat.length - 1) rest)
    else
      c :: pyReplaceAux pat rep fuel rest

/-- Python `s.replace(pat, rep)` for the nonempty patterns used by the source
(`"{Col}"` placeholders and `" "`). An empty pattern is never passed by
`app.py`; we return `s` unchanged in that unused case. -/
def pyReplace (s pat rep : List Char) : List Char :=
  if pat.isEmpty then s else pyReplaceAux pat rep s.length s

/-- Python `str.strip()` with default (whitespace) argument. -/
def pyStrip (s : List Char) : List Char :=
  ((s.dropWhile isPySpace).reverse.dropWhile isPySpace).reverse

/-- `df['Contact'].str.replace(" ", "").str.strip()` applied to one cell
(app.py line 247): remove every space character, then strip leading/trailing
whitespace. -/
def normalizeContact (s : List Char) : List Char :=
  pyStrip (pyReplace s [' '] [])

/-- `str()` of the parsed `NextHearingDate` cell: a parsed date prints in a
stable form (modelled as the decimal day number), the unparsable case (`NaT`
after `pd.to_datetime(..., errors='coerce')`) prints as `"NaT"`. -/
def dateStr (d : Option Nat) : List Char :=
  match d with
  | none => "NaT".toList
  | some n => (Nat.repr n).toList

/-- One row of the recipient CSV after column selection (app.py line 254),
with `NextHearingDate` already parsed (`none` = unparsable/`NaT`).
Dates are abstract day numbers. -/
structure RecipientRecord where
  client : List Char
  contact : List Char
  nextHearingDate : Option Nat
  category : List Char
  typRnRy : List Char
  parties : List Char
  deriving Repr, DecidableEq

/-- `clients.columns` in source order (app.py line 254). -/
def fieldName : Fin 6 → List Char
  | 0 => ['C', 'l', 'i', 'e', 'n', 't']
  | 1 => ['C', 'o', 'n', 't', 'a', 'c', 't']
  | 2 => ['N', 'e', 'x', 't', 'H', 'e', 'a', 'r', 'i', 'n', 'g', 'D', 'a', 't', 'e']
  | 3 => ['C', 'a', 't', 'e', 'g', 'o', 'r', 'y']
  | 4 => ['T', 'y', 'p', 'R', 'n', 'R', 'y']
  | 5 => ['P', 'a', 'r', 't', 'i', 'e', 's']

/-- `str(row[col])` for the column of index `i`. -/
def fieldVal (r : RecipientRecord) : Fin 6 → List Char
  | 0 => r.client
  | 1 => r.contact
  | 2 => dateStr r.nextHearingDate
  | 3 => r.category
  | 4 => r.typRnRy
  | 5 => r.parties

/-- The literal placeholder text `f"{{{col}}}"` for column `i`. -/
def phStr (i : Fin 6) : List Char :=
  '{' :: fieldName i ++ ['}']

/-- The placeholder loop of app.py lines 295-297: for each column in order,
`message = message.replace("{col}", str(row[col]))`. -/
def renderMessage (tpl : List Char) (r : RecipientRecord) : List Char :=
  (List.finRange 6).foldl (fun m i => pyReplace m (phStr i) (fieldVal r i)) tpl

/-- The first column (if any) whose placeholder matches at the front of `s`. -/
def findPh (s : List Char) : Option (Fin 6) :=
  (List.finRange 6).find? (fun i => (phStr i).isPrefixOf s)

/-- Fuel-indexed single-pass simultaneous substitution; the wrapper passes
`fuel = s.length`. -/
def renderSpecAux (r : RecipientRecord) : Nat → List Char → List Char
  | _, [] => []
  | 0, l => l
  | Nat.succ fuel, c :: rest =>
    match findPh (c :: rest) with
    | some i =>
        fieldVal r i ++ renderSpecAux r fuel (List.drop ((phStr i).length - 1) rest)
    | none => c :: renderSpecAux r fuel rest

/-- Modelled from the spec (4.3): replace every literal occurrence of
`{FieldName}` with the field's string value in one simultaneous pass,
leaving placeholders with unknown names unchanged. -/
def renderSpec (r : RecipientRecord) (tpl : List Char) : List Char :=
  renderSpecAux r tpl.length tpl

/-- One entry of `message_status['messages']` (app.py lines 303-307). -/
structure MessageResult where
  client : List Char
  contact : List Char
  status : String
  deriving Repr, DecidableEq

/-- The global `message_status` dictionary (app.py lines 42-48). -/
structure DispatchStatus where
  isRunning : Bool
  currentStep : String
  progress : Nat
  total : Nat
  messages : List MessageResult
  deriving Repr, DecidableEq

/-- The initial global `message_status` created at process start. -/
def initialGlobalStatus : DispatchStatus :=
  { isRunning := false, currentStep := "", progress := 0, total := 0, messages := [] }

/-- The writes performed by `run_messaging_process` before its `try:` block
(app.py lines 226-229). Note that `total` is not written here. -/
def initStatus (s : DispatchStatus) : DispatchStatus :=
  { s with isRunning := true, currentStep := "Initializing...", progress := 0, messages := [] }

/-- Outcome of the `/start_messaging` handler. -/
inductive StartResp where
  | ok
  | errAlreadyRunning
  | errNoCsv
  deriving Repr, DecidableEq

/-- The `start_messaging` handler (app.py lines 193-213): returns the HTTP
response, whether a worker thread was spawned, and the global status after the
handler itself ran (the handler never writes `message_status`; only the
spawned worker does). -/
def startMessaging (s : DispatchStatus) (hasCsv : Bool) :
    StartResp × Bool × DispatchStatus :=
  if s.isRunning then (.errAlreadyRunning, false, s)
  else if !hasCsv then (.errNoCsv, false, s)
  else (.ok, true, s)

/-- The two message templates consumed by the dispatch path. -/
structure Templates where
  activeT : List Char
  noInstrT : List Char
  deriving Repr, DecidableEq

/-- `templates.get(category, '')` (app.py line 291) with the dictionary built
at lines 263-271. -/
def getTemplate (t : Templates) (category : List Char) : List Char :=
  if category = "Active".toList then t.activeT
  else if category = "NoClientsInstruction".toList then t.noInstrT
  else []

/-- `selected_categories` (app.py line 252). -/
def selectedCategories : List (List Char) :=
  ["Active".toList, "NoClientsInstruction".toList]

/-- The two filtering steps of app.py lines 257-258: keep rows whose
`Category` is in `selected_categories`, then keep rows whose parsed
`NextHearingDate` equals the reference date (`NaT`/`none` never compares
equal). Both steps preserve row order. -/
def dueRecords (rows : List RecipientRecord) (refDate : Nat) : List RecipientRecord :=
  (rows.filter (fun r => selectedCategories.contains r.category)).filter
    (fun r => r.nextHearingDate == some refDate)

/-- The `MessageResult` appended for one row given the boolean send result
(app.py lines 303-307). -/
def mkResult (r : RecipientRecord) (ok : Bool) : MessageResult :=
  { client := r.client, contact := r.contact, status := if ok then "Success" else "Failed" }

/-- The list of results produced by the send loop for the rows `rs`, when the
enumeration index of the first row of `rs` is `idx`; `send` is the oracle for
`send_whatsapp_message_webapp` (index, contact, rendered message ↦ success).
That function wraps everything in `try/except` returning a bool, so it never
raises. -/
def resultsFrom (send : Nat → List Char → List Char → Bool) (tpl : Templates)
    (idx : Nat) : List RecipientRecord → List MessageResult
  | [] => []
  | r :: rest =>
      mkResult r (send idx r.contact (renderMessage (getTemplate tpl r.category) r)) ::
        resultsFrom send tpl (idx + 1) rest

/-- The `for index, (_, row) in enumerate(today_clients.iterrows())` loop of
app.py lines 285-309: render the row's template, send, set
`progress = index + 1`, append the result, and `time.sleep(5)`. Returns the
status after the loop together with the number of completed iterations
(= send attempts = applied delays). -/
def sendLoop (send : Nat → List Char → List Char → Bool) (tpl : Templates)
    (idx : Nat) (rs : List RecipientRecord) (s : DispatchStatus) :
    DispatchStatus × Nat :=
  match rs with
  | [] => (s, 0)
  | r :: rest =>
      let msg := renderMessage (getTemplate tpl r.category) r
      let ok := send idx r.contact msg
      let s1 := { s with progress := idx + 1,
                         messages := s.messages ++ [mkResult r ok] }
      let res := sendLoop send tpl (idx + 1) rest s1
      (res.1, res.2 + 1)

/-- `pd.read_csv` post-processing of app.py lines 246-247: keep rows, with
each `Contact` cell normalized. -/
def normalizeRows (raw : List RecipientRecord) : List RecipientRecord :=
  raw.map fun r => { r with contact := normalizeContact r.contact }

/-- The machine-level effects of one run, injected as data: the CSV read
(`pd.read_csv`, raising modelled as `.error msg`), the current date for the
`datetime.now().date() + timedelta(days=6)` computation, the two template
file reads, WebDriver initialisation, the session check
(`check_session_webapp` catches its own exceptions and returns a bool), the
per-attempt send oracle, and a possible exception from `driver.quit()`. -/
structure Env where
  rows : Except String (List RecipientRecord)
  currentDate : Nat
  activeTemplate : Except String (List Char)
  noInstrTemplate : Except String (List Char)
  driverOk : Except String Unit
  sessionOk : Bool
  send : Nat → List Char → List Char → Bool
  quitErr : Option String

/-- The due set a run computes from the raw CSV rows: contacts normalized,
then filtered against the reference date `currentDate + 6`
(`datetime.now().date() + timedelta(days=6)`, app.py line 251). -/
def dueOf (env : Env) (raw : List RecipientRecord) : List RecipientRecord :=
  dueRecords (normalizeRows raw) (env.currentDate + 6)

/-- The body of the `try:` block of `run_messaging_process` (app.py lines
231-313), starting from the status left by `initStatus`. Returns the status
at normal return or at the raise point, the number of loop iterations, and
`some msg` when an exception was raised (to be handled by the `except`
clause). -/
def runBody (env : Env) (s : DispatchStatus) : DispatchStatus × Nat × Option String :=
  let s := { s with currentStep := "Processing CSV file..." }
  match env.rows with
  | .error m => (s, 0, some m)
  | .ok rawRows =>
    let rows := normalizeRows rawRows
    let s := { s with currentStep := "Filtering clients..." }
    let refDate := env.currentDate + 6
    let due := dueRecords rows refDate
    let s := { s with total := due.length }
    match env.activeTemplate with
    | .error m => (s, 0, some m)
    | .ok aT =>
      match env.noInstrTemplate with
      | .error m => (s, 0, some m)
      | .ok nT =>
        let s := { s with currentStep := "Initializing browser..." }
        match env.driverOk with
        | .error m => (s, 0, some m)
        | .ok _ =>
          if !env.sessionOk then
            ({ s with currentStep := "Session check failed", isRunning := false }, 0, none)
          else
            let s := { s with currentStep := "Sending messages..." }
            let res := sendLoop env.send ⟨aT, nT⟩ 0 due s
            match env.quitErr with
            | some m => (res.1, res.2, some m)
            | none =>
                ({ res.1 with currentStep := "Completed", isRunning := false }, res.2, none)

/-- `run_messaging_process` (app.py lines 223-317): the pre-`try` reset, the
body, and the `except Exception` handler that converts any raised exception
into `current_step = 'Error: <msg>'` and `is_running = False`. The function
is total: no exception escapes the worker. The second component counts loop
iterations (= delays applied). -/
def runMessaging (env : Env) (s0 : DispatchStatus) : DispatchStatus × Nat :=
  let res := runBody env (initStatus s0)
  match res.2.2 with
  | some m => ({ res.1 with currentStep := "Error: " ++ m, isRunning := false }, res.2.1)
  | none => (res.1, res.2.1)

/-- Events of the two-request interleaving model for the single-flight guard:
`check i` is request `i` executing the `start_messaging` handler (guard test
plus thread spawn), `init i` is the spawned worker `i` executing the
pre-`try` writes of `run_messaging_process` (in particular
`is_running = True`). -/
inductive SfEvent where
  | check (i : Fin 2)
  | init (i : Fin 2)
  deriving Repr, DecidableEq

/-- State of the interleaving model: the shared `message_status` plus, for
each request, whether its handler spawned a worker thread. -/
structure SfState where
  status : DispatchStatus
  spawned : Fin 2 → Bool

/-- One scheduler step. A `check` runs the handler against the shared status;
an `init` only does something if that request's worker was spawned. -/
def sfStep (st : SfState) : SfEvent → SfState
  | .check i =>
      let (_, sp, s) := startMessaging st.status true
      { status := s, spawned := fun j => if j = i then sp else st.spawned j }
  | .init i =>
      if st.spawned i then { st with status := initStatus st.status } else st

/-- Run a schedule of events from a given shared status, no worker spawned. -/
def sfRun (s0 : DispatchStatus) (evs : List SfEvent) : SfState :=
  evs.foldl sfStep { status := s0, spawned := fun _ => false }

/-- Number of workers spawned in an interleaving-model state. -/
def workersSpawned (st : SfState) : Nat :=
  (if st.spawned 0 then 1 else 0) + (if st.spawned 1 then 1 else 0)

/-!
Token decomposition of templates, used to state on which templates the
sequential replacement loop of app.py agrees with the spec's simultaneous
substitution: a literal segment, a known placeholder, or an unknown
placeholder `{w}`.
-/

/-- A token of a structured template. -/
inductive Tok where
  | lit (l : List Char)
  | ph (i : Fin 6)
  | unk (w : List Char)
  deriving Repr, DecidableEq

/-- The text of a token. -/
def tokStr : Tok → List Char
  | .lit l => l
  | .ph i => phStr i
  | .unk w => '{' :: w ++ ['}']

/-- The text of a token list. -/
def flattenToks : List Tok → List Char
  | [] => []
  | t :: ts => tokStr t ++ flattenToks ts

/-- Well-formedness: literal segments contain no opening brace; the name of
an unknown placeholder contains no brace and is none of the six field
names. -/
def WfTok : Tok → Prop
  | .lit l => '{' ∉ l
  | .ph _ => True
  | .unk w => '{' ∉ w ∧ '}' ∉ w ∧ ∀ i : Fin 6, w ≠ fieldName i

instance : DecidablePred WfTok := fun t =>
  match t with
  | .lit l => inferInstanceAs (Decidable ('{' ∉ l))
  | .ph _ => inferInstanceAs (Decidable True)
  | .unk w =>
      inferInstanceAs (Decidable ('{' ∉ w ∧ '}' ∉ w ∧ ∀ i : Fin 6, w ≠ fieldName i))

/-- Simultaneous substitution on the token level: known placeholders become
their field value, everything else is untouched. -/
def substTok (r : RecipientRecord) : Tok → Tok
  | .ph i => .lit (fieldVal r i)
  | t => t

/-- The effect of one `message.replace("{col_i}", rep)` pass on the token
level. -/
def replacePh (i : Fin 6) (rep : List Char) : Tok → Tok
  | .ph j => if j = i then .lit rep else .ph j
  | t => t

/-! ### Helper lemmas about the send loop and the worker -/

theorem resultsFrom_length (send : Nat → List Char → List Char → Bool)
    (tpl : Templates) (rs : List RecipientRecord) :
    ∀ idx, (resultsFrom send tpl idx rs).length = rs.length := by
  induction rs with
  | nil => intro idx; rfl
  | cons r rest ih => intro idx; simp [resultsFrom, ih]

theorem sendLoop_eq (send : Nat → List Char → List Char → Bool) (tpl : Templates)
    (rs : List RecipientRecord) :
    ∀ (idx : Nat) (s : DispatchStatus),
      sendLoop send tpl idx rs s =
        ({ s with
            progress := if rs.isEmpty then s.progress else idx + rs.length,
            messages := s.messages ++ resultsFrom send tpl idx rs }, rs.length) := by
  induction rs with
  | nil => intro idx s; simp [sendLoop, resultsFrom]
  | cons r rest ih =>
      intro idx s
      simp only [sendLoop, ih, resultsFrom]
      cases rest with
      | nil => simp
      | cons r2 rest2 =>
          simp [List.append_assoc]
          omega

/-! ### C1: single-flight check-then-set -/

/-- C1 counterexample: the claim says two back-to-back start requests always
leave exactly one active worker. In the interleaving where both requests run
their `start_messaging` guard before the first spawned worker executes the
`is_running = True` write of `run_messaging_process`, both requests are
accepted and two workers are spawned: the check and the set are not atomic. -/
theorem c1_check_then_set_counterexample :
    workersSpawned
      (sfRun initialGlobalStatus [.check 0, .check 1, .init 0, .init 1]) = 2 := by
  rfl

/-- C1 amended: the guard in `start_messaging` and the `is_running = True`
write in `run_messaging_process` are separate, non-atomic steps. From any
idle status, the schedule in which both guards run before the first worker's
write accepts both requests (two workers spawned); the second request is
rejected exactly in schedules where the first worker's write precedes the
second guard, in which case one worker is spawned and request 1 is refused. -/
theorem c1_check_then_set_amended (s0 : DispatchStatus) (h : s0.isRunning = false) :
    workersSpawned (sfRun s0 [.check 0, .check 1, .init 0, .init 1]) = 2 ∧
    workersSpawned (sfRun s0 [.check 0, .init 0, .check 1]) = 1 ∧
    (sfRun s0 [.check 0, .init 0, .check 1]).spawned 1 = false := by
  refine ⟨?_, ?_, ?_⟩ <;>
    simp [sfRun, sfStep, startMessaging, initStatus, workersSpawned, h, List.foldl]

/-- Witness for the amended C1 at the process-start status. -/
theorem c1_check_then_set_amended_witness :
    workersSpawned
        (sfRun initialGlobalStatus [.check 0, .check 1, .init 0, .init 1]) = 2 ∧
    workersSpawned (sfRun initialGlobalStatus [.check 0, .init 0, .check 1]) = 1 := by
  have h := c1_check_then_set_amended initialGlobalStatus rfl
  exact ⟨h.1, h.2.1⟩

/-! ### C2: a start request while a run is active is rejected -/

/-- C2: whenever `message_status['is_running']` is true, `start_messaging`
answers with the "already in progress" error, spawns no worker thread, and
leaves the shared status exactly as it was. -/
theorem c2_reject_while_running (s : DispatchStatus) (hasCsv : Bool)
    (h : s.isRunning = true) :
    startMessaging s hasCsv = (.errAlreadyRunning, false, s) := by
  simp [startMessaging, h]

/-- Witness for C2 at a concrete mid-run status. -/
theorem c2_reject_while_running_witness :
    startMessaging
        { isRunning := true, currentStep := "Sending messages...", progress := 1,
          total := 3, messages := [] } true =
      (.errAlreadyRunning, false,
        { isRunning := true, currentStep := "Sending messages...", progress := 1,
          total := 3, messages := [] }) :=
  c2_reject_while_running _ true rfl

/-! ### C9: what the per-run initialization overwrites -/

/-- C9 counterexample: the claim says that once initialization completes no
field of the status retains a value from a previous run, `total` included.
But the pre-`try` writes of `run_messaging_process` (app.py lines 226-229)
do not touch `total`: starting from a previous-run status with `total = 7`,
the status right after initialization still has `total = 7`; and when the
CSV read then raises, the run ends in the error state with the stale
`total = 7` still visible. -/
theorem c9_init_overwrites_counterexample :
    (initStatus
        { isRunning := false, currentStep := "Completed", progress := 3,
          total := 7, messages := [] }).total = 7 ∧
    (initStatus
        { isRunning := false, currentStep := "Completed", progress := 3,
          total := 7, messages := [] }).total ≠ 0 ∧
    (runMessaging
        { rows := .error "boom", currentDate := 0, activeTemplate := .ok [],
          noInstrTemplate := .ok [], driverOk := .ok (), sessionOk := true,
          send := fun _ _ _ => false, quitErr := none }
        { isRunning := false, currentStep := "Completed", progress := 3,
          total := 7, messages := [] }).1.total = 7 := by
  refine ⟨rfl, by decide, rfl⟩

/-- C9 amended: at the start of a run the worker overwrites `isRunning`
(true), `currentStep`, `progress` (0) and `messages` (empty), but not
`total`; `total` keeps the previous run's value and is only overwritten
after filtering, so a run that fails before filtering (e.g. the CSV read
raises) leaves the previous run's `total` in place. -/
theorem c9_init_overwrites_amended (prev : DispatchStatus) :
    (initStatus prev).isRunning = true ∧
    (initStatus prev).currentStep = "Initializing..." ∧
    (initStatus prev).progress = 0 ∧
    (initStatus prev).messages = [] ∧
    (initStatus prev).total = prev.total ∧
    (∀ (env : Env) (s0 : DispatchStatus) (m : String),
      env.rows = .error m → (runMessaging env s0).1.total = s0.total) := by
  refine ⟨rfl, rfl, rfl, rfl, rfl, ?_⟩
  intro env s0 m h
  simp [runMessaging, runBody, h, initStatus]

/-- Witness for the amended C9 at a concrete previous-run status and a
concrete failing environment. -/
theorem c9_init_overwrites_amended_witness :
    (initStatus
        { isRunning := false, currentStep := "Completed", progress := 3,
          total := 7, messages := [] }).progress = 0 ∧
    (runMessaging
        { rows := .error "x", currentDate := 0, activeTemplate := .ok [],
          noInstrTemplate := .ok [], driverOk := .ok (), sessionOk := true,
          send := fun _ _ _ => false, quitErr := none }
        { isRunning := false, currentStep := "Completed", progress := 3,
          total := 7, messages := [] }).1.total = 7 := by
  have h := c9_init_overwrites_amended
    { isRunning := false, currentStep := "Completed", progress := 3,
      total := 7, messages := [] }
  exact ⟨h.2.2.2.1.symm ▸ rfl, h.2.2.2.2.2 _ _ "x" rfl⟩

/-! ### C5: failed session check aborts before any send -/

/-- C5: when the CSV and template reads and the WebDriver initialisation
succeed but `check_session_webapp` returns false, the run stops with
`current_step = 'Session check failed'` and `is_running = False`; no send
attempt and no delay happen (the loop iteration count is 0), `progress`
stays 0 and `messages` stays empty. -/
theorem c5_session_failed (env : Env) (s0 : DispatchStatus)
    (raw : List RecipientRecord) (aT nT : List Char)
    (h1 : env.rows = .ok raw) (h2 : env.activeTemplate = .ok aT)
    (h3 : env.noInstrTemplate = .ok nT) (h4 : env.driverOk = .ok ())
    (h5 : env.sessionOk = false) :
    (runMessaging env s0).1.currentStep = "Session check failed" ∧
    (runMessaging env s0).1.isRunning = false ∧
    (runMessaging env s0).1.progress = 0 ∧
    (runMessaging env s0).1.messages = [] ∧
    (runMessaging env s0).2 = 0 := by
  refine ⟨?_, ?_, ?_, ?_, ?_⟩ <;>
    simp [runMessaging, runBody, h1, h2, h3, h4, h5, initStatus]

/-- Witness for C5 at a concrete environment with one due record. -/
theorem c5_session_failed_witness :
    (runMessaging
        { rows := .ok [{ client := ['a'], contact := ['b'],
                         nextHearingDate := some 6, category := "Active".toList,
                         typRnRy := ['t'], parties := ['p'] }],
          currentDate := 0, activeTemplate := .ok ['m'], noInstrTemplate := .ok ['n'],
          driverOk := .ok (), sessionOk := false,
          send := fun _ _ _ => true, quitErr := none }
        initialGlobalStatus).1.currentStep = "Session check failed" ∧
    (runMessaging
        { rows := .ok [{ client := ['a'], contact := ['b'],
                         nextHearingDate := some 6, category := "Active".toList,
                         typRnRy := ['t'], parties := ['p'] }],
          currentDate := 0, activeTemplate := .ok ['m'], noInstrTemplate := .ok ['n'],
          driverOk := .ok (), sessionOk := false,
          send := fun _ _ _ => true, quitErr := none }
        initialGlobalStatus).1.messages = [] := by
  have h := c5_session_failed
    { rows := .ok [{ client := ['a'], contact := ['b'],
                     nextHearingDate := some 6, category := "Active".toList,
                     typRnRy := ['t'], parties := ['p'] }],
      currentDate := 0, activeTemplate := .ok ['m'], noInstrTemplate := .ok ['n'],
      driverOk := .ok (), sessionOk := false,
      send := fun _ _ _ => true, quitErr := none }
    initialGlobalStatus _ _ _ rfl rfl rfl rfl rfl
  exact ⟨h.1, h.2.2.2.1⟩

/-! ### C6: the worker is the error boundary -/

/-- C6: `runMessaging` is a total function (the `except Exception` clause of
`run_messaging_process` means no exception reaches the caller of start), and
whenever the body raises with message `m` — at whichever point — the final
status has `current_step = 'Error: ' + m` and `is_running = False`, while
`messages` is exactly what had been appended up to the raise point. In the
concrete case of `driver.quit()` raising after the loop, every appended
`MessageResult` of the run remains visible. -/
theorem c6_worker_error_boundary (env : Env) (s0 : DispatchStatus) (m : String)
    (h : (runBody env (initStatus s0)).2.2 = some m) :
    (runMessaging env s0).1.currentStep = "Error: " ++ m ∧
    (runMessaging env s0).1.isRunning = false ∧
    (runMessaging env s0).1.messages = (runBody env (initStatus s0)).1.messages ∧
    (runMessaging env s0).2 = (runBody env (initStatus s0)).2.1 ∧
    (∀ (raw : List RecipientRecord) (aT nT : List Char),
      env.rows = .ok raw → env.activeTemplate = .ok aT →
      env.noInstrTemplate = .ok nT → env.driverOk = .ok () →
      env.sessionOk = true → env.quitErr = some m →
      (runMessaging env s0).1.messages =
        resultsFrom env.send ⟨aT, nT⟩ 0
          (dueRecords (normalizeRows raw) (env.currentDate + 6))) := by
  refine ⟨?_, ?_, ?_, ?_, ?_⟩
  · simp [runMessaging, h]
  · simp [runMessaging, h]
  · simp [runMessaging, h]
  · simp [runMessaging, h]
  · intro raw aT nT h1 h2 h3 h4 h5 h6
    simp [runMessaging, runBody, h, h1, h2, h3, h4, h5, h6, sendLoop_eq, initStatus]

/-- Witness for C6: `driver.quit()` raises after one successful send; the
run ends in the error state with the already-appended result visible. -/
theorem c6_worker_error_boundary_witness :
    (runMessaging
        { rows := .ok [{ client := ['a'], contact := ['b'],
                         nextHearingDate := some 6, category := "Active".toList,
                         typRnRy := ['t'], parties := ['p'] }],
          currentDate := 0, activeTemplate := .ok ['m'], noInstrTemplate := .ok ['n'],
          driverOk := .ok (), sessionOk := true,
          send := fun _ _ _ => true, quitErr := some "quit failed" }
        initialGlobalStatus).1.currentStep = "Error: quit failed" ∧
    (runMessaging
        { rows := .ok [{ client := ['a'], contact := ['b'],
                         nextHearingDate := some 6, category := "Active".toList,
                         typRnRy := ['t'], parties := ['p'] }],
          currentDate := 0, activeTemplate := .ok ['m'], noInstrTemplate := .ok ['n'],
          driverOk := .ok (), sessionOk := true,
          send := fun _ _ _ => true, quitErr := some "quit failed" }
        initialGlobalStatus).1.messages =
      [{ client := ['a'], contact := ['b'], status := "Success" }] := by
  have h := c6_worker_error_boundary
    { rows := .ok [{ client := ['a'], contact := ['b'],
                     nextHearingDate := some 6, category := "Active".toList,
                     typRnRy := ['t'], parties := ['p'] }],
      currentDate := 0, activeTemplate := .ok ['m'], noInstrTemplate := .ok ['n'],
      driverOk := .ok (), sessionOk := true,
      send := fun _ _ _ => true, quitErr := some "quit failed" }
    initialGlobalStatus "quit failed" (by rfl)
  refine ⟨h.1, ?_⟩
  rw [h.2.2.2.2 _ _ _ rfl rfl rfl rfl rfl rfl]
  rfl

theorem resultsFrom_get (send : Nat → List Char → List Char → Bool)
    (tpl : Templates) :
    ∀ (rs : List RecipientRecord) (idx i : Nat) (h : i < rs.length)
      (h2 : i < (resultsFrom send tpl idx rs).length),
      (resultsFrom send tpl idx rs).get ⟨i, h2⟩ =
        mkResult (rs.get ⟨i, h⟩)
          (send (idx + i) (rs.get ⟨i, h⟩).contact
            (renderMessage (getTemplate tpl (rs.get ⟨i, h⟩).category)
              (rs.get ⟨i, h⟩))) := by
  intro rs
  induction rs with
  | nil => intro idx i h h2; exact absurd h (Nat.not_lt_zero i)
  | cons r rest ih =>
      intro idx i h h2
      cases i with
      | zero => simp [resultsFrom]
      | succ i =>
          have h' : i < rest.length := Nat.lt_of_succ_lt_succ h
          have h2' : i < (resultsFrom send tpl (idx + 1) rest).length := by
            rw [resultsFrom_length]; exact h'
          have := ih (idx + 1) i h' h2'
          have harith : idx + 1 + i = idx + (i + 1) := by omega
          rw [harith] at this
          simp only [resultsFrom, List.get_cons_succ]
          exact this

/-! ### C3: the send loop on the success path -/

/-- C3: when the session opens, the worker walks the due records in filtered
order; record `i` yields exactly one `MessageResult` whose `client`/`contact`
are the record's and whose status is `'Success'` precisely when the send
oracle returned true at index `i` (a false result does not abort the loop);
`progress` ends at the due count, one delay is applied per attempt
(iteration count = due count), `len(messages) = total`, and the run ends
with `current_step = 'Completed'`, `is_running = False`. -/
theorem c3_send_loop (env : Env) (s0 : DispatchStatus)
    (raw : List RecipientRecord) (aT nT : List Char)
    (h1 : env.rows = .ok raw) (h2 : env.activeTemplate = .ok aT)
    (h3 : env.noInstrTemplate = .ok nT) (h4 : env.driverOk = .ok ())
    (h5 : env.sessionOk = true) (h6 : env.quitErr = none) :
    (runMessaging env s0).1.messages.length = (dueOf env raw).length ∧
    (runMessaging env s0).1.total = (dueOf env raw).length ∧
    (runMessaging env s0).1.progress = (dueOf env raw).length ∧
    (∀ (i : Nat) (hd : i < (dueOf env raw).length)
       (hm : i < (runMessaging env s0).1.messages.length),
      (runMessaging env s0).1.messages.get ⟨i, hm⟩ =
        mkResult ((dueOf env raw).get ⟨i, hd⟩)
          (env.send i ((dueOf env raw).get ⟨i, hd⟩).contact
            (renderMessage
              (getTemplate ⟨aT, nT⟩ ((dueOf env raw).get ⟨i, hd⟩).category)
              ((dueOf env raw).get ⟨i, hd⟩)))) ∧
    (runMessaging env s0).1.currentStep = "Completed" ∧
    (runMessaging env s0).1.isRunning = false ∧
    (runMessaging env s0).2 = (dueOf env raw).length := by
  have hrun : runMessaging env s0 =
      ({ isRunning := false, currentStep := "Completed",
         progress :=
           if (dueOf env raw).isEmpty then 0 else 0 + (dueOf env raw).length,
         total := (dueOf env raw).length,
         messages := resultsFrom env.send ⟨aT, nT⟩ 0 (dueOf env raw) },
       (dueOf env raw).length) := by
    simp [runMessaging, runBody, h1, h2, h3, h4, h5, h6, sendLoop_eq, initStatus,
      dueOf]
  have hmsg : (runMessaging env s0).1.messages =
      resultsFrom env.send ⟨aT, nT⟩ 0 (dueOf env raw) := by rw [hrun]
  refine ⟨?_, ?_, ?_, ?_, ?_, ?_, ?_⟩
  · rw [hmsg, resultsFrom_length]
  · rw [hrun]
  · rw [hrun]
    cases hd : dueOf env raw with
    | nil => simp
    | cons r rest => simp
  · intro i hd hm
    revert hm
    rw [hmsg]
    intro hm
    have := resultsFrom_get env.send ⟨aT, nT⟩ (dueOf env raw) 0 i hd hm
    simpa using this
  · rw [hrun]
  · rw [hrun]
  · rw [hrun]

/-- Witness for C3: two due records, the second send failing; the loop does
not abort, both results are recorded in order, and the run completes. -/
theorem c3_send_loop_witness :
    (runMessaging
        { rows := .ok
            [{ client := ['a'], contact := ['b'], nextHearingDate := some 6,
               category := "Active".toList, typRnRy := ['t'], parties := ['p'] },
             { client := ['c'], contact := ['d'], nextHearingDate := some 6,
               category := "NoClientsInstruction".toList, typRnRy := ['t'],
               parties := ['q'] }],
          currentDate := 0, activeTemplate := .ok ['m'], noInstrTemplate := .ok ['n'],
          driverOk := .ok (), sessionOk := true,
          send := fun i _ _ => i == 0, quitErr := none }
        initialGlobalStatus).1.messages =
      [{ client := ['a'], contact := ['b'], status := "Success" },
       { client := ['c'], contact := ['d'], status := "Failed" }] ∧
    (runMessaging
        { rows := .ok
            [{ client := ['a'], contact := ['b'], nextHearingDate := some 6,
               category := "Active".toList, typRnRy := ['t'], parties := ['p'] },
             { client := ['c'], contact := ['d'], nextHearingDate := some 6,
               category := "NoClientsInstruction".toList, typRnRy := ['t'],
               parties := ['q'] }],
          currentDate := 0, activeTemplate := .ok ['m'], noInstrTemplate := .ok ['n'],
          driverOk := .ok (), sessionOk := true,
          send := fun i _ _ => i == 0, quitErr := none }
        initialGlobalStatus).1.currentStep = "Completed" := by
  have h := c3_send_loop
    { rows := .ok
        [{ client := ['a'], contact := ['b'], nextHearingDate := some 6,
           category := "Active".toList, typRnRy := ['t'], parties := ['p'] },
         { client := ['c'], contact := ['d'], nextHearingDate := some 6,
           category := "NoClientsInstruction".toList, typRnRy := ['t'],
           parties := ['q'] }],
      currentDate := 0, activeTemplate := .ok ['m'], noInstrTemplate := .ok ['n'],
      driverOk := .ok (), sessionOk := true,
      send := fun i _ _ => i == 0, quitErr := none }
    initialGlobalStatus _ _ _ rfl rfl rfl rfl rfl rfl
  exact ⟨by rfl, h.2.2.2.2.1⟩

/-! ### C4: the filter engine -/

/-- C4: the two pandas filter steps (app.py lines 257-258) select exactly the
records with `Category` in `{Active, NoClientsInstruction}` whose parsed
`NextHearingDate` equals the reference date, as one order-preserving filter
(a sublist of the input); records with an unparsable date (`none`) are never
selected; and in a run whose CSV read succeeded, the worker's `total` is the
size of the due set computed at the reference date `currentDate + 6`. -/
theorem c4_filter_engine (rows : List RecipientRecord) (d : Nat) :
    dueRecords rows d =
      rows.filter (fun r =>
        selectedCategories.contains r.category && (r.nextHearingDate == some d)) ∧
    (dueRecords rows d).Sublist rows ∧
    (∀ r : RecipientRecord,
      r ∈ dueRecords rows d ↔
        r ∈ rows ∧
          (r.category = "Active".toList ∨
            r.category = "NoClientsInstruction".toList) ∧
          r.nextHearingDate = some d) ∧
    (∀ r ∈ dueRecords rows d, r.nextHearingDate ≠ none) ∧
    (∀ (env : Env) (s0 : DispatchStatus) (raw : List RecipientRecord),
      env.rows = .ok raw →
      (runMessaging env s0).1.total = (dueOf env raw).length) := by
  have hmem : ∀ r : RecipientRecord,
      r ∈ dueRecords rows d ↔
        r ∈ rows ∧
          (r.category = "Active".toList ∨
            r.category = "NoClientsInstruction".toList) ∧
          r.nextHearingDate = some d := by
    intro r
    simp [dueRecords, List.mem_filter, selectedCategories, List.contains]
    tauto
  refine ⟨?_, ?_, hmem, ?_, ?_⟩
  · rw [dueRecords, List.filter_filter]
    exact List.filter_congr (fun r _ => by rw [Bool.and_comm])
  · exact (List.filter_sublist _).trans (List.filter_sublist _)
  · intro r hr
    have := (hmem r).1 hr
    rw [this.2.2]
    exact fun hc => Option.noConfusion hc
  · intro env s0 raw h
    rcases h2 : env.activeTemplate with m | aT
    · simp [runMessaging, runBody, h, h2, initStatus, dueOf]
    · rcases h3 : env.noInstrTemplate with m | nT
      · simp [runMessaging, runBody, h, h2, h3, initStatus, dueOf]
      · rcases h4 : env.driverOk with m | u
        · simp [runMessaging, runBody, h, h2, h3, h4, initStatus, dueOf]
        · cases h5 : env.sessionOk
          · simp [runMessaging, runBody, h, h2, h3, h4, h5, initStatus, dueOf]
          · rcases h6 : env.quitErr with _ | m
            · simp [runMessaging, runBody, h, h2, h3, h4, h5, h6, sendLoop_eq,
                initStatus, dueOf]
            · simp [runMessaging, runBody, h, h2, h3, h4, h5, h6, sendLoop_eq,
                initStatus, dueOf]

/-- Witness for C4: the end-to-end scenario of the spec, with one record per
category/date combination; exactly the Active and NoClientsInstruction
records dated `currentDate + 6` are selected, in input order. -/
theorem c4_filter_engine_witness :
    dueRecords
        [{ client := ['A'], contact := ['1'], nextHearingDate := some 6,
           category := "Active".toList, typRnRy := ['t'], parties := ['p'] },
         { client := ['B'], contact := ['2'], nextHearingDate := some 7,
           category := "Active".toList, typRnRy := ['t'], parties := ['p'] },
         { client := ['C'], contact := ['3'], nextHearingDate := some 6,
           category := "NoClientsInstruction".toList, typRnRy := ['t'],
           parties := ['p'] },
         { client := ['D'], contact := ['4'], nextHearingDate := none,
           category := "Active".toList, typRnRy := ['t'], parties := ['p'] },
         { client := ['E'], contact := ['5'], nextHearingDate := some 6,
           category := "Inactive".toList, typRnRy := ['t'], parties := ['p'] }] 6 =
      [{ client := ['A'], contact := ['1'], nextHearingDate := some 6,
         category := "Active".toList, typRnRy := ['t'], parties := ['p'] },
       { client := ['C'], contact := ['3'], nextHearingDate := some 6,
         category := "NoClientsInstruction".toList, typRnRy := ['t'],
         parties := ['p'] }] := by
  have h := c4_filter_engine
    [{ client := ['A'], contact := ['1'], nextHearingDate := some 6,
       category := "Active".toList, typRnRy := ['t'], parties := ['p'] },
     { client := ['B'], contact := ['2'], nextHearingDate := some 7,
       category := "Active".toList, typRnRy := ['t'], parties := ['p'] },
     { client := ['C'], contact := ['3'], nextHearingDate := some 6,
       category := "NoClientsInstruction".toList, typRnRy := ['t'],
       parties := ['p'] },
     { client := ['D'], contact := ['4'], nextHearingDate := none,
       category := "Active".toList, typRnRy := ['t'], parties := ['p'] },
     { client := ['E'], contact := ['5'], nextHearingDate := some 6,
       category := "Inactive".toList, typRnRy := ['t'], parties := ['p'] }] 6
  rw [h.1]
  decide

/-! ### C10: progress equals the number of recorded results -/

/-- Helper for C10: the `if` produced by `sendLoop_eq` on the success path. -/
theorem ite_isEmpty_length {α : Type} (l : List α) :
    (if l.isEmpty then 0 else 0 + l.length) = l.length := by
  cases l <;> simp

/-- C10: `progress` always equals `len(messages)` at loop boundaries and in
every terminal state. Concretely: the send loop preserves the invariant
(given the entry conditions that hold when the worker reaches it), the final
status of any run satisfies it, and both quantities are 0 right after
initialization and after a session-check failure. -/
theorem c10_progress_invariant
    (env : Env) (s0 : DispatchStatus)
    (send : Nat → List Char → List Char → Bool) (tpl : Templates)
    (idx : Nat) (rs : List RecipientRecord) (s : DispatchStatus)
    (hp : s.progress = s.messages.length) (hi : idx = s.messages.length) :
    (sendLoop send tpl idx rs s).1.progress =
      (sendLoop send tpl idx rs s).1.messages.length ∧
    (runMessaging env s0).1.progress = (runMessaging env s0).1.messages.length ∧
    ((initStatus s0).progress = 0 ∧ (initStatus s0).messages = []) ∧
    (∀ (raw : List RecipientRecord) (aT nT : List Char),
      env.rows = .ok raw → env.activeTemplate = .ok aT →
      env.noInstrTemplate = .ok nT → env.driverOk = .ok () →
      env.sessionOk = false →
      (runMessaging env s0).1.progress = 0 ∧
        (runMessaging env s0).1.messages = []) := by
  refine ⟨?_, ?_, ⟨rfl, rfl⟩, ?_⟩
  · rw [sendLoop_eq]
    cases rs with
    | nil => simpa using hp
    | cons r rest => simp [resultsFrom_length, hi]
  · rcases h1 : env.rows with m | raw
    · simp [runMessaging, runBody, h1, initStatus]
    · rcases h2 : env.activeTemplate with m | aT
      · simp [runMessaging, runBody, h1, h2, initStatus]
      · rcases h3 : env.noInstrTemplate with m | nT
        · simp [runMessaging, runBody, h1, h2, h3, initStatus]
        · rcases h4 : env.driverOk with m | u
          · simp [runMessaging, runBody, h1, h2, h3, h4, initStatus]
          · cases h5 : env.sessionOk
            · simp [runMessaging, runBody, h1, h2, h3, h4, h5, initStatus]
            · rcases h6 : env.quitErr with _ | m
              · simp [runMessaging, runBody, h1, h2, h3, h4, h5, h6, sendLoop_eq,
                  initStatus, resultsFrom_length, ite_isEmpty_length]
                intro hz
                simp [hz]
              · simp [runMessaging, runBody, h1, h2, h3, h4, h5, h6, sendLoop_eq,
                  initStatus, resultsFrom_length, ite_isEmpty_length]
                intro hz
                simp [hz]
  · intro raw aT nT h1 h2 h3 h4 h5
    constructor <;> simp [runMessaging, runBody, h1, h2, h3, h4, h5, initStatus]

/-- Witness for C10 at a concrete loop entry state and environment. -/
theorem c10_progress_invariant_witness :
    (sendLoop (fun _ _ _ => true) ⟨['m'], ['n']⟩ 0
        [{ client := ['a'], contact := ['b'], nextHearingDate := some 6,
           category := "Active".toList, typRnRy := ['t'], parties := ['p'] }]
        (initStatus initialGlobalStatus)).1.progress =
      (sendLoop (fun _ _ _ => true) ⟨['m'], ['n']⟩ 0
        [{ client := ['a'], contact := ['b'], nextHearingDate := some 6,
           category := "Active".toList, typRnRy := ['t'], parties := ['p'] }]
        (initStatus initialGlobalStatus)).1.messages.length ∧
    (runMessaging
        { rows := .ok [], currentDate := 0, activeTemplate := .ok ['m'],
          noInstrTemplate := .ok ['n'], driverOk := .ok (), sessionOk := true,
          send := fun _ _ _ => true, quitErr := none }
        initialGlobalStatus).1.progress =
      (runMessaging
        { rows := .ok [], currentDate := 0, activeTemplate := .ok ['m'],
          noInstrTemplate := .ok ['n'], driverOk := .ok (), sessionOk := true,
          send := fun _ _ _ => true, quitErr := none }
        initialGlobalStatus).1.messages.length := by
  have h := c10_progress_invariant
    { rows := .ok [], currentDate := 0, activeTemplate := .ok ['m'],
      noInstrTemplate := .ok ['n'], driverOk := .ok (), sessionOk := true,
      send := fun _ _ _ => true, quitErr := none }
    initialGlobalStatus (fun _ _ _ => true) ⟨['m'], ['n']⟩ 0
    [{ client := ['a'], contact := ['b'], nextHearingDate := some 6,
       category := "Active".toList, typRnRy := ['t'], parties := ['p'] }]
    (initStatus initialGlobalStatus) rfl rfl
  exact ⟨h.1, h.2.1⟩

/-! ### C8: contact normalization -/

/-- `str.replace(" ", "")` removes exactly the space characters. -/
theorem pyReplaceAux_space :
    ∀ (f : Nat) (s : List Char), s.length ≤ f →
      pyReplaceAux [' '] [] f s = s.filter (fun c => c != ' ') := by
  intro f
  induction f with
  | zero =>
      intro s hs
      have : s = [] := List.eq_nil_of_length_eq_zero (Nat.le_zero.mp hs)
      subst this
      rfl
  | succ f ih =>
      intro s hs
      cases s with
      | nil => rfl
      | cons c rest =>
          have hr : rest.length ≤ f := by
            simp only [List.length_cons] at hs
            omega
          by_cases hc : c = ' '
          · subst hc
            simp [pyReplaceAux, List.isPrefixOf, ih rest hr]
          · have : ([' '] : List Char).isPrefixOf (c :: rest) = false := by
              simp [List.isPrefixOf_cons₂]
              exact fun hcc => absurd hcc.symm hc
            simp [pyReplaceAux, this, ih rest hr, hc]

theorem pyReplace_space (s : List Char) :
    pyReplace s [' '] [] = s.filter (fun c => c != ' ') := by
  simp [pyReplace, pyReplaceAux_space s.length s (Nat.le_refl _)]

/-- `str.strip()` is the identity on a string with no whitespace. -/
theorem pyStrip_eq_self (l : List Char) (h : ∀ c ∈ l, isPySpace c = false) :
    pyStrip l = l := by
  have h1 : l.dropWhile isPySpace = l := by
    cases l with
    | nil => rfl
    | cons c t => simp [List.dropWhile_cons, h c (List.mem_cons_self c t)]
  have h2 : l.reverse.dropWhile isPySpace = l.reverse := by
    cases hl : l.reverse with
    | nil => rfl
    | cons c t =>
        have hc : c ∈ l := by
          have : c ∈ l.reverse := hl ▸ List.mem_cons_self c t
          simpa using this
        simp [List.dropWhile_cons, h c hc]
  simp [pyStrip, h1, h2]

/-- C8 counterexample: the claim says all whitespace is removed, but
app.py line 247 only removes the space character and then strips the ends:
a tab inside the number survives. -/
theorem c8_contact_normalization_counterexample :
    normalizeContact "+91\t98765".toList ≠
      List.filter (fun c => !isPySpace c) "+91\t98765".toList := by
  decide

/-- C8 amended: the stored contact is the source contact with all space
characters removed and then leading/trailing whitespace stripped; whenever
every whitespace character of the source is a plain space — as in the
spec's example — this coincides with removing all whitespace. -/
theorem c8_contact_normalization_amended (s : List Char)
    (h : ∀ c ∈ s, isPySpace c = true → c = ' ') :
    normalizeContact s = s.filter (fun c => !isPySpace c) := by
  rw [normalizeContact, pyReplace_space]
  have hfe : s.filter (fun c => c != ' ') = s.filter (fun c => !isPySpace c) := by
    refine List.filter_congr (fun c hc => ?_)
    by_cases hsp : isPySpace c = true
    · rw [h c hc hsp]
      decide
    · have hb : isPySpace c = false := Bool.eq_false_iff.mpr hsp
      have hcs : c ≠ ' ' := by
        intro hcc
        subst hcc
        exact hsp rfl
      simp [hb, hcs]
  rw [hfe]
  refine pyStrip_eq_self _ (fun c hc => ?_)
  have := (List.mem_filter.mp hc).2
  simpa using this

/-- Witness for the amended C8: the spec's own example,
`"+91 98765 43210"` stored as `"+919876543210"`. -/
theorem c8_contact_normalization_witness :
    normalizeContact "+91 98765 43210".toList = "+919876543210".toList := by
  rw [c8_contact_normalization_amended "+91 98765 43210".toList (by decide)]
  decide

/-! ### C7: template rendering. Step lemmas for the replace scanner -/

theorem pyReplaceAux_fuel (pat rep : List Char) :
    ∀ (f : Nat) (s : List Char), s.length ≤ f →
      pyReplaceAux pat rep f s = pyReplaceAux pat rep s.length s := by
  intro f
  induction f using Nat.strong_induction_on with
  | _ f ih =>
    intro s hs
    cases f with
    | zero =>
        have : s = [] := List.eq_nil_of_length_eq_zero (Nat.le_zero.mp hs)
        subst this
        rfl
    | succ f =>
        cases s with
        | nil => rfl
        | cons c rest =>
            have hr : rest.length ≤ f := by
              simp only [List.length_cons] at hs
              omega
            cases hp : pat.isPrefixOf (c :: rest) with
            | true =>
                have hd : (List.drop (pat.length - 1) rest).length ≤ rest.length := by
                  simp [List.length_drop]
                have e1 := ih f (Nat.lt_succ_self f)
                  (List.drop (pat.length - 1) rest) (Nat.le_trans hd hr)
                have e2 := ih rest.length (by omega)
                  (List.drop (pat.length - 1) rest) hd
                simp [pyReplaceAux, hp, List.length_cons, e1, e2]
            | false =>
                have e1 := ih f (Nat.lt_succ_self f) rest hr
                simp [pyReplaceAux, hp, List.length_cons, e1]

theorem pyReplace_nil (pat rep : List Char) : pyReplace [] pat rep = [] := by
  cases hp : pat.isEmpty <;> simp [pyReplace, hp, pyReplaceAux]

theorem pyReplace_cons_neg (pat rep : List Char) (c : Char) (t : List Char)
    (h : pat.isPrefixOf (c :: t) = false) :
    pyReplace (c :: t) pat rep = c :: pyReplace t pat rep := by
  have hne : pat.isEmpty = false := by
    cases pat with
    | nil => simp at h
    | cons p ps => rfl
  simp only [pyReplace, hne, Bool.false_eq_true, if_false, List.length_cons,
    pyReplaceAux, h]

theorem pyReplace_cons_pos (pat rep : List Char) (c : Char) (t : List Char)
    (h : pat.isPrefixOf (c :: t) = true) (hne : pat ≠ []) :
    pyReplace (c :: t) pat rep =
      rep ++ pyReplace (List.drop (pat.length - 1) t) pat rep := by
  have hne' : pat.isEmpty = false := by
    cases pat with
    | nil => exact absurd rfl hne
    | cons p ps => rfl
  have hd : (List.drop (pat.length - 1) t).length ≤ t.length := by
    simp [List.length_drop]
  simp only [pyReplace, hne', Bool.false_eq_true, if_false, List.length_cons,
    pyReplaceAux, h, if_true]
  rw [pyReplaceAux_fuel pat rep t.length _ hd]

theorem isPrefixOf_append_self (p s : List Char) :
    p.isPrefixOf (p ++ s) = true := by
  induction p with
  | nil => simp
  | cons a p ih => simp [List.isPrefixOf_cons₂, ih]

theorem prefix_mono_take :
    ∀ (p x : List Char) (k : Nat), p.isPrefixOf x = true →
      (p.take k).isPrefixOf (x.take k) = true := by
  intro p
  induction p with
  | nil => intro x k h; simp
  | cons a p ih =>
      intro x k h
      cases x with
      | nil => simp at h
      | cons b x =>
          rw [List.isPrefixOf_cons₂, Bool.and_eq_true] at h
          have h1 : (a == b) = true := h.1
          have h2 : p.isPrefixOf x = true := h.2
          cases k with
          | zero => simp
          | succ k => simp [List.isPrefixOf_cons₂, h1, ih x k h2]

theorem phStr_take3 (j : Fin 6) (s : List Char) :
    List.take 3 (phStr j ++ s) = List.take 3 (phStr j) := by
  fin_cases j <;> rfl

theorem phStr_not_prefix_append (i j : Fin 6) (hij : i ≠ j) (s : List Char) :
    (phStr i).isPrefixOf (phStr j ++ s) = false := by
  cases hx : (phStr i).isPrefixOf (phStr j ++ s) with
  | false => rfl
  | true =>
      exfalso
      have ht := prefix_mono_take _ _ 3 hx
      rw [phStr_take3 j s] at ht
      revert ht hij
      fin_cases i <;> fin_cases j <;> decide

theorem name_not_prefix :
    ∀ (n w : List Char), '}' ∉ n → '}' ∉ w → n ≠ w →
      ∀ s, (n ++ ['}']).isPrefixOf (w ++ '}' :: s) = false := by
  intro n
  induction n with
  | nil =>
      intro w hn hw hne s
      cases w with
      | nil => exact absurd rfl hne
      | cons b w =>
          have hb : b ≠ '}' := fun hb => hw (hb ▸ List.mem_cons_self b w)
          simp [List.isPrefixOf_cons₂]
          exact fun hc => absurd hc.symm hb
  | cons a n ih =>
      intro w hn hw hne s
      have ha : a ≠ '}' := fun ha => hn (ha ▸ List.mem_cons_self a n)
      cases w with
      | nil =>
          simp [List.isPrefixOf_cons₂]
          exact fun hc => absurd hc ha
      | cons b w =>
          by_cases hab : a = b
          · subst hab
            have hn' : '}' ∉ n := fun hm => hn (List.mem_cons_of_mem a hm)
            have hw' : '}' ∉ w := fun hm => hw (List.mem_cons_of_mem a hm)
            have hne' : n ≠ w := fun he => hne (he ▸ rfl)
            simp [List.isPrefixOf_cons₂, ih w hn' hw' hne' s]
          · simp [List.isPrefixOf_cons₂]
            exact fun hc => absurd hc hab

theorem fieldName_no_brace (i : Fin 6) :
    '{' ∉ fieldName i ∧ '}' ∉ fieldName i := by
  fin_cases i <;> exact ⟨by decide, by decide⟩

theorem phStr_not_prefix_unk (i : Fin 6) (w : List Char)
    (hw2 : '}' ∉ w) (hw3 : w ≠ fieldName i) (s : List Char) :
    (phStr i).isPrefixOf (('{' :: w ++ ['}']) ++ s) = false := by
  have h1 : ('{' :: w ++ ['}']) ++ s = '{' :: (w ++ '}' :: s) := by simp
  have h2 : (fieldName i ++ ['}']).isPrefixOf (w ++ '}' :: s) = false :=
    name_not_prefix (fieldName i) w (fieldName_no_brace i).2 hw2
      (fun he => hw3 he.symm) s
  rw [h1, phStr]
  simp only [List.cons_append, List.isPrefixOf_cons₂, h2]
  simp

theorem phStr_ne_nil (i : Fin 6) : phStr i ≠ [] := by
  simp [phStr]

theorem pyReplace_braceFree_append (i : Fin 6) (rep : List Char) :
    ∀ (l s : List Char), '{' ∉ l →
      pyReplace (l ++ s) (phStr i) rep = l ++ pyReplace s (phStr i) rep := by
  intro l
  induction l with
  | nil => intro s hl; simp
  | cons c l ih =>
      intro s hl
      have hc : c ≠ '{' := fun h => hl (h ▸ List.mem_cons_self c l)
      have hpre : (phStr i).isPrefixOf (c :: (l ++ s)) = false := by
        rw [phStr]
        simp only [List.cons_append, List.isPrefixOf_cons₂]
        have hb : ('{' == c) = false := beq_eq_false_iff_ne.mpr (fun h => hc h.symm)
        simp [hb]
      rw [List.cons_append, pyReplace_cons_neg _ _ _ _ hpre,
        ih s (fun hm => hl (List.mem_cons_of_mem c hm)), List.cons_append]

theorem pyReplace_ph_self (i : Fin 6) (rep s : List Char) :
    pyReplace (phStr i ++ s) (phStr i) rep = rep ++ pyReplace s (phStr i) rep := by
  have hcons : phStr i ++ s = '{' :: ((fieldName i ++ ['}']) ++ s) := by
    simp [phStr]
  have hpre : (phStr i).isPrefixOf ('{' :: ((fieldName i ++ ['}']) ++ s)) = true := by
    rw [← hcons]
    exact isPrefixOf_append_self _ _
  have hlen : (phStr i).length - 1 = (fieldName i ++ ['}']).length := by
    simp [phStr]
  rw [hcons, pyReplace_cons_pos _ _ _ _ hpre (phStr_ne_nil i), hlen, List.drop_left]

theorem pyReplace_ph_other (i j : Fin 6) (hij : i ≠ j) (rep s : List Char) :
    pyReplace (phStr j ++ s) (phStr i) rep = phStr j ++ pyReplace s (phStr i) rep := by
  have hcons : phStr j ++ s = '{' :: ((fieldName j ++ ['}']) ++ s) := by
    simp [phStr]
  have hpre : (phStr i).isPrefixOf (phStr j ++ s) = false :=
    phStr_not_prefix_append i j hij s
  rw [hcons] at hpre
  have hnb : '{' ∉ fieldName j ++ ['}'] := by
    intro hm
    rcases List.mem_append.mp hm with h | h
    · exact (fieldName_no_brace j).1 h
    · simp at h
  rw [hcons, pyReplace_cons_neg _ _ _ _ hpre,
    pyReplace_braceFree_append i rep _ s hnb]
  simp [phStr]

theorem pyReplace_unk (i : Fin 6) (w : List Char)
    (hw1 : '{' ∉ w) (hw2 : '}' ∉ w) (hw3 : w ≠ fieldName i) (rep s : List Char) :
    pyReplace (('{' :: w ++ ['}']) ++ s) (phStr i) rep =
      ('{' :: w ++ ['}']) ++ pyReplace s (phStr i) rep := by
  have hpre := phStr_not_prefix_unk i w hw2 hw3 s
  have hcons : ('{' :: w ++ ['}']) ++ s = '{' :: ((w ++ ['}']) ++ s) := by simp
  rw [hcons] at hpre
  have hnb : '{' ∉ w ++ ['}'] := by
    intro hm
    rcases List.mem_append.mp hm with h | h
    · exact hw1 h
    · simp at h
  rw [hcons, pyReplace_cons_neg _ _ _ _ hpre,
    pyReplace_braceFree_append i rep _ s hnb]
  simp

theorem pyReplace_flatten (i : Fin 6) (rep : List Char) :
    ∀ ts : List Tok, (∀ t ∈ ts, WfTok t) →
      pyReplace (flattenToks ts) (phStr i) rep =
        flattenToks (ts.map (replacePh i rep)) := by
  intro ts
  induction ts with
  | nil => intro h; simp [flattenToks, pyReplace_nil]
  | cons t ts ih =>
      intro h
      have ht := h t (List.mem_cons_self t ts)
      have hts := fun t' ht' => h t' (List.mem_cons_of_mem t ht')
      cases t with
      | lit l =>
          simp only [flattenToks, tokStr, List.map_cons, replacePh]
          rw [pyReplace_braceFree_append i rep l _ ht, ih hts]
      | ph j =>
          by_cases hj : j = i
          · subst hj
            have hrw : replacePh j rep (Tok.ph j) = Tok.lit rep := by
              simp [replacePh]
            rw [show flattenToks (Tok.ph j :: ts) = phStr j ++ flattenToks ts
                from rfl,
              pyReplace_ph_self j rep _, ih hts, List.map_cons, hrw]
            rfl
          · have hrw : replacePh i rep (Tok.ph j) = Tok.ph j := by
              simp [replacePh, hj]
            rw [show flattenToks (Tok.ph j :: ts) = phStr j ++ flattenToks ts
                from rfl,
              pyReplace_ph_other i j (fun he => hj he.symm) rep _, ih hts,
              List.map_cons, hrw]
            rfl
      | unk w =>
          obtain ⟨hw1, hw2, hw3⟩ := ht
          simp only [flattenToks, tokStr, List.map_cons, replacePh]
          rw [pyReplace_unk i w hw1 hw2 (hw3 i) rep _, ih hts]

theorem wfTok_replacePh (r : RecipientRecord)
    (hvals : ∀ i : Fin 6, '{' ∉ fieldVal r i) (i : Fin 6) (t : Tok)
    (h : WfTok t) : WfTok (replacePh i (fieldVal r i) t) := by
  cases t with
  | lit l => exact h
  | unk w => exact h
  | ph j =>
      by_cases hj : j = i
      · subst hj
        simp only [replacePh, if_pos rfl]
        exact hvals j
      · simp only [replacePh, if_neg hj]
        trivial

theorem foldl_map_general {α β : Type} (g : β → α → α) :
    ∀ (l : List β) (ts : List α),
      List.foldl (fun acc b => acc.map (g b)) ts l =
        ts.map (fun a => List.foldl (fun a b => g b a) a l) := by
  intro l
  induction l with
  | nil => intro ts; simp
  | cons b l ih =>
      intro ts
      simp only [List.foldl_cons, ih, List.map_map]
      rfl

theorem foldl_replace_token (r : RecipientRecord) (t : Tok) :
    List.foldl (fun a i => replacePh i (fieldVal r i) a) t (List.finRange 6) =
      substTok r t := by
  have hfin : List.finRange 6 = [0, 1, 2, 3, 4, 5] := by decide
  rw [hfin]
  cases t with
  | lit l => rfl
  | unk w => rfl
  | ph j => fin_cases j <;> rfl

theorem renderMessage_flatten (r : RecipientRecord) (ts : List Tok)
    (hts : ∀ t ∈ ts, WfTok t) (hvals : ∀ i : Fin 6, '{' ∉ fieldVal r i) :
    renderMessage (flattenToks ts) r = flattenToks (ts.map (substTok r)) := by
  suffices h : ∀ (l : List (Fin 6)) (ts : List Tok), (∀ t ∈ ts, WfTok t) →
      List.foldl (fun m i => pyReplace m (phStr i) (fieldVal r i))
          (flattenToks ts) l =
        flattenToks
          (List.foldl (fun acc i => acc.map (replacePh i (fieldVal r i))) ts l) by
    rw [renderMessage, h (List.finRange 6) ts hts,
      foldl_map_general (fun i t => replacePh i (fieldVal r i) t)]
    simp only [foldl_replace_token]
  intro l
  induction l with
  | nil => intro ts _; rfl
  | cons i l ih =>
      intro ts hwf
      simp only [List.foldl_cons]
      rw [pyReplace_flatten i (fieldVal r i) ts hwf]
      exact ih _ (fun t' ht' => by
        obtain ⟨t0, ht0, he⟩ := List.mem_map.mp ht'
        exact he ▸ wfTok_replacePh r hvals i t0 (hwf t0 ht0))

theorem renderSpecAux_fuel (r : RecipientRecord) :
    ∀ (f : Nat) (s : List Char), s.length ≤ f →
      renderSpecAux r f s = renderSpecAux r s.length s := by
  intro f
  induction f using Nat.strong_induction_on with
  | _ f ih =>
    intro s hs
    cases f with
    | zero =>
        have : s = [] := List.eq_nil_of_length_eq_zero (Nat.le_zero.mp hs)
        subst this
        rfl
    | succ f =>
        cases s with
        | nil => rfl
        | cons c rest =>
            have hr : rest.length ≤ f := by
              simp only [List.length_cons] at hs
              omega
            cases hfp : findPh (c :: rest) with
            | some i =>
                have hd : (List.drop ((phStr i).length - 1) rest).length ≤
                    rest.length := by
                  simp [List.length_drop]
                have e1 := ih f (Nat.lt_succ_self f)
                  (List.drop ((phStr i).length - 1) rest) (Nat.le_trans hd hr)
                have e2 := ih rest.length (by omega)
                  (List.drop ((phStr i).length - 1) rest) hd
                simp [renderSpecAux, hfp, List.length_cons, e1, e2]
            | none =>
                have e1 := ih f (Nat.lt_succ_self f) rest hr
                simp [renderSpecAux, hfp, List.length_cons, e1]

theorem findPh_none (s : List Char)
    (h : ∀ i : Fin 6, (phStr i).isPrefixOf s = false) : findPh s = none := by
  rw [findPh]
  exact List.find?_eq_none.mpr (fun i _ => by simp [h i])

theorem findPh_cons_not_brace (c : Char) (t : List Char) (hc : c ≠ '{') :
    findPh (c :: t) = none := by
  apply findPh_none
  intro i
  rw [phStr]
  simp only [List.cons_append, List.isPrefixOf_cons₂]
  have hb : ('{' == c) = false := beq_eq_false_iff_ne.mpr (fun h => hc h.symm)
  simp [hb]

theorem findPh_unk (w s : List Char) (hw2 : '}' ∉ w)
    (hw3 : ∀ i : Fin 6, w ≠ fieldName i) :
    findPh (('{' :: w ++ ['}']) ++ s) = none :=
  findPh_none _ (fun i => phStr_not_prefix_unk i w hw2 (hw3 i) s)

theorem find?_unique {α : Type} (p : α → Bool) (j : α) :
    ∀ l : List α, j ∈ l → p j = true → (∀ a ∈ l, a ≠ j → p a = false) →
      l.find? p = some j := by
  intro l
  induction l with
  | nil => intro hm _ _; exact absurd hm (List.not_mem_nil j)
  | cons a l ih =>
      intro hm hp hothers
      by_cases ha : a = j
      · subst ha
        rw [List.find?_cons, hp]
      · have hpa : p a = false := hothers a (List.mem_cons_self a l) ha
        rw [List.find?_cons, hpa]
        have hm' : j ∈ l := by
          rcases List.mem_cons.mp hm with h | h
          · exact absurd h.symm ha
          · exact h
        exact ih hm' hp (fun b hb => hothers b (List.mem_cons_of_mem a hb))

theorem findPh_ph (j : Fin 6) (s : List Char) : findPh (phStr j ++ s) = some j :=
  find?_unique _ j (List.finRange 6) (List.mem_finRange j)
    (isPrefixOf_append_self (phStr j) s)
    (fun i _ hij => phStr_not_prefix_append i j hij s)

theorem renderSpec_cons_none (r : RecipientRecord) (c : Char) (t : List Char)
    (h : findPh (c :: t) = none) :
    renderSpec r (c :: t) = c :: renderSpec r t := by
  simp only [renderSpec, List.length_cons, renderSpecAux, h]

theorem renderSpec_cons_some (r : RecipientRecord) (c : Char) (t : List Char)
    (i : Fin 6) (h : findPh (c :: t) = some i) :
    renderSpec r (c :: t) =
      fieldVal r i ++ renderSpec r (List.drop ((phStr i).length - 1) t) := by
  have hd : (List.drop ((phStr i).length - 1) t).length ≤ t.length := by
    simp [List.length_drop]
  simp only [renderSpec, List.length_cons, renderSpecAux, h]
  rw [renderSpecAux_fuel r t.length _ hd]

theorem renderSpec_braceFree_append (r : RecipientRecord) :
    ∀ (l s : List Char), '{' ∉ l →
      renderSpec r (l ++ s) = l ++ renderSpec r s := by
  intro l
  induction l with
  | nil => intro s _; rfl
  | cons c l ih =>
      intro s hl
      have hc : c ≠ '{' := fun h => hl (h ▸ List.mem_cons_self c l)
      rw [List.cons_append,
        renderSpec_cons_none r c _ (findPh_cons_not_brace _ _ hc),
        ih s (fun hm => hl (List.mem_cons_of_mem c hm)), List.cons_append]

theorem renderSpec_ph (r : RecipientRecord) (j : Fin 6) (s : List Char) :
    renderSpec r (phStr j ++ s) = fieldVal r j ++ renderSpec r s := by
  have hcons : phStr j ++ s = '{' :: ((fieldName j ++ ['}']) ++ s) := by
    simp [phStr]
  have hf : findPh ('{' :: ((fieldName j ++ ['}']) ++ s)) = some j := by
    rw [← hcons]
    exact findPh_ph j s
  have hlen : (phStr j).length - 1 = (fieldName j ++ ['}']).length := by
    simp [phStr]
  rw [hcons, renderSpec_cons_some r _ _ j hf, hlen, List.drop_left]

theorem renderSpec_unk (r : RecipientRecord) (w : List Char)
    (hw1 : '{' ∉ w) (hw2 : '}' ∉ w) (hw3 : ∀ i : Fin 6, w ≠ fieldName i)
    (s : List Char) :
    renderSpec r (('{' :: w ++ ['}']) ++ s) =
      ('{' :: w ++ ['}']) ++ renderSpec r s := by
  have hcons : ('{' :: w ++ ['}']) ++ s = '{' :: ((w ++ ['}']) ++ s) := by simp
  have hf := findPh_unk w s hw2 hw3
  rw [hcons] at hf
  have hnb : '{' ∉ w ++ ['}'] := by
    intro hm
    rcases List.mem_append.mp hm with h | h
    · exact hw1 h
    · simp at h
  rw [hcons, renderSpec_cons_none r _ _ hf,
    renderSpec_braceFree_append r _ s hnb]
  simp

theorem renderSpec_flatten (r : RecipientRecord) :
    ∀ ts : List Tok, (∀ t ∈ ts, WfTok t) →
      renderSpec r (flattenToks ts) = flattenToks (ts.map (substTok r)) := by
  intro ts
  induction ts with
  | nil => intro _; rfl
  | cons t ts ih =>
      intro h
      have ht := h t (List.mem_cons_self t ts)
      have hts := fun t' ht' => h t' (List.mem_cons_of_mem t ht')
      cases t with
      | lit l =>
          rw [show flattenToks (Tok.lit l :: ts) = l ++ flattenToks ts from rfl,
            renderSpec_braceFree_append r l _ ht, ih hts]
          rfl
      | ph j =>
          rw [show flattenToks (Tok.ph j :: ts) = phStr j ++ flattenToks ts
              from rfl,
            renderSpec_ph r j _, ih hts]
          rfl
      | unk w =>
          obtain ⟨hw1, hw2, hw3⟩ := ht
          rw [show flattenToks (Tok.unk w :: ts) =
              ('{' :: w ++ ['}']) ++ flattenToks ts from rfl,
            renderSpec_unk r w hw1 hw2 hw3 _, ih hts]
          rfl

/-- C7 counterexample: the claim describes simultaneous substitution
(`renderSpec`), but app.py lines 295-297 apply the six replacements
sequentially, so substituted field values are themselves rescanned by later
passes. First disagreement: field value containing a later placeholder
(`Client = "{Contact}"` in template `"{Client}"`: the code yields the
Contact value, not the literal Client value). Second disagreement: even with
brace-free field values, an earlier replacement can splice template text into
a later placeholder (`"{Con{Client}tact}"` with `Client = ""` becomes the
Contact value under the code, but stays `"{Contact}"` under simultaneous
substitution). -/
theorem c7_render_counterexample :
    renderMessage "{Client}".toList
        { client := "{Contact}".toList, contact := ['c'], nextHearingDate := some 5,
          category := "Active".toList, typRnRy := ['t'], parties := ['p'] } ≠
      renderSpec
        { client := "{Contact}".toList, contact := ['c'], nextHearingDate := some 5,
          category := "Active".toList, typRnRy := ['t'], parties := ['p'] }
        "{Client}".toList ∧
    renderMessage "{Con{Client}tact}".toList
        { client := [], contact := ['C', 'C'], nextHearingDate := some 5,
          category := "Active".toList, typRnRy := ['t'], parties := ['p'] } ≠
      renderSpec
        { client := [], contact := ['C', 'C'], nextHearingDate := some 5,
          category := "Active".toList, typRnRy := ['t'], parties := ['p'] }
        "{Con{Client}tact}".toList :=
  ⟨by decide, by decide⟩

/-- C7 amended: on templates that decompose into brace-free literal
segments, known placeholders and well-formed unknown placeholders, and for
records whose rendered field values contain no opening brace, the sequential
replacement loop of app.py agrees with the spec's simultaneous substitution:
every known placeholder is replaced by its field value and every unknown
placeholder (and literal segment) is left unchanged. -/
theorem c7_render_amended (ts : List Tok) (r : RecipientRecord)
    (hts : ∀ t ∈ ts, WfTok t) (hvals : ∀ i : Fin 6, '{' ∉ fieldVal r i) :
    renderMessage (flattenToks ts) r = flattenToks (ts.map (substTok r)) ∧
    renderSpec r (flattenToks ts) = flattenToks (ts.map (substTok r)) :=
  ⟨renderMessage_flatten r ts hts hvals, renderSpec_flatten r ts hts⟩

/-- Witness for the amended C7: a template with two known placeholders, a
literal and an unknown placeholder; both the code's renderer and the spec's
substitution produce the expected text, the unknown placeholder surviving
verbatim. -/
theorem c7_render_amended_witness :
    renderMessage
        (flattenToks
          [Tok.ph 0, Tok.lit " meets ".toList, Tok.unk "Other".toList,
           Tok.lit "! ".toList, Tok.ph 5])
        { client := "Bob".toList, contact := ['c'], nextHearingDate := some 5,
          category := "Active".toList, typRnRy := ['t'], parties := "Y".toList } =
      "Bob meets {Other}! Y".toList ∧
    renderSpec
        { client := "Bob".toList, contact := ['c'], nextHearingDate := some 5,
          category := "Active".toList, typRnRy := ['t'], parties := "Y".toList }
        (flattenToks
          [Tok.ph 0, Tok.lit " meets ".toList, Tok.unk "Other".toList,
           Tok.lit "! ".toList, Tok.ph 5]) =
      "Bob meets {Other}! Y".toList := by
  have h := c7_render_amended
    [Tok.ph 0, Tok.lit " meets ".toList, Tok.unk "Other".toList,
     Tok.lit "! ".toList, Tok.ph 5]
    { client := "Bob".toList, contact := ['c'], nextHearingDate := some 5,
      category := "Active".toList, typRnRy := ['t'], parties := "Y".toList }
    (by decide) (by decide)
  exact ⟨h.1.trans (by decide), h.2.trans (by decide)⟩

end WhatsappWebapp
